import Mathlib

/-!
Verification development for the `WebSearch` tool
(`app/tool/web_search.py`): a shallow embedding of its data model and
orchestration logic (engine-order resolution, per-engine retry with
exponential backoff, the all-engines trial with result normalization,
and the outer retry loop), together with theorems settling the spec's
claims about it.
-/

/-- StructuredResult: the per-result record built during normalization
(the dict literals at web_search.py lines 121-127 and 131-137). -/
structure StructuredResult where
  title : String
  url : String
  domain : String
  snippet : String
  favicon : String
deriving Repr, DecidableEq

/-- Favicon-service URL template of web_search.py line 126,
parameterized by the domain. -/
def faviconTemplate (domain : String) : String :=
  "https://www.google.com/s2/favicons?domain=" ++ domain

/-- Normalization of one raw link at 0-based position i
(web_search.py lines 114-137).  URL parsing is abstracted as a
function from the link to an optional authority component (netloc):
`some domain` when `urlparse` succeeds, `none` when it raises.  On
success the structured entry carries the domain, the snippet
"Found at " ++ domain and the favicon template; on failure the minimal
entry of the except-branch is appended instead, so the link is never
dropped. -/
def structuredOf (parse : String → Option String) (i : Nat) (link : String) :
    StructuredResult :=
  match parse link with
  | some domain =>
      { title := "Result " ++ toString (i + 1)
        url := link
        domain := domain
        snippet := "Found at " ++ domain
        favicon := faviconTemplate domain }
  | none =>
      { title := "Result " ++ toString (i + 1)
        url := link
        domain := "unknown"
        snippet := "No description available"
        favicon := "" }

/-- Loop of web_search.py lines 114-137: `for i, link in enumerate(links)`
starting from index i, appending one structured entry per link. -/
def structuredResultsAux (parse : String → Option String) :
    Nat → List String → List StructuredResult
  | _, [] => []
  | i, link :: rest =>
      structuredOf parse i link :: structuredResultsAux parse (i + 1) rest

/-- Full normalization of a list of raw links (enumerate starts at 0). -/
def structuredResults (parse : String → Option String)
    (links : List String) : List StructuredResult :=
  structuredResultsAux parse 0 links

/-- Characters following the first "://" separator, or `none` when the
string has no such separator. -/
def charsAfterSchemeSep : List Char → Option (List Char)
  | [] => none
  | ':' :: '/' :: '/' :: rest => some rest
  | _ :: rest => charsAfterSchemeSep rest

/-- Characters of the authority component: everything up to the first
path, query or fragment delimiter. -/
def takeAuthority : List Char → List Char
  | [] => []
  | c :: rest =>
      if c = '/' ∨ c = '?' ∨ c = '#' then [] else c :: takeAuthority rest

/-- Modelled from the spec: the authority component of a URL, standing
in for Python's external `urllib.parse.urlparse(link).netloc`
(web_search.py lines 117-118), which is not part of this repository.
Following the spec's words, the domain is "its authority component"
for a URL of the form scheme://authority/rest, and a string that fails
parsing yields `none` (the spec's example treats a string without a
URL structure, "not a url", as a parse failure). -/
def netlocOf (url : String) : Option String :=
  match charsAfterSchemeSep url.data with
  | some rest => some (String.mk (takeAuthority rest))
  | none => none

/-- Numbered text lines of web_search.py line 140:
`f"{i+1}. {link}"` for each link, starting at index i. -/
def numberLines : Nat → List String → List String
  | _, [] => []
  | i, link :: rest => (toString (i + 1) ++ ". " ++ link) :: numberLines (i + 1) rest

/-- Text output of web_search.py line 140: the numbered links joined
with newlines. -/
def resultText (links : List String) : String :=
  String.intercalate "\n" (numberLines 0 links)

/-- Payload of the `structured_data` dict attached to the ToolResult
(web_search.py lines 144-149 and 157-161).  The `engine` key is present
only in the success outcome, hence an `Option`; the spec calls this
field `engine_used`. -/
structure StructuredData where
  query : String
  engine : Option String
  results : List StructuredResult
  display_type : String
deriving Repr, DecidableEq

/-- ToolResult as used by web_search.py: the text `output` plus the
`structured_data` payload (the other ToolResult fields of the base class
are never set by this tool and are omitted). -/
structure ToolResult where
  output : String
  structured_data : StructuredData
deriving Repr, DecidableEq

/-- Success outcome built at web_search.py lines 142-150 when an engine
returned a non-empty list of links. -/
def successOutcome (parse : String → Option String) (query engineName : String)
    (links : List String) : ToolResult :=
  { output := "Search results for '" ++ query ++ "':\n" ++ resultText links
    structured_data :=
      { query := query
        engine := some engineName
        results := structuredResults parse links
        display_type := "search_results" } }

/-- Empty outcome built at web_search.py lines 155-162 when every engine
failed or returned empty: empty results and no `engine` key. -/
def emptyOutcome (query : String) : ToolResult :=
  { output := "No search results found for '" ++ query ++ "'."
    structured_data :=
      { query := query
        engine := none
        results := []
        display_type := "search_results" } }

/-- Tag distinguishing the four engine instances of the `_search_engine`
registry (web_search.py lines 41-46). -/
inductive EngineTag where
  | google
  | baidu
  | duckduckgo
  | bing
deriving Repr, DecidableEq

/-- Fixed, insertion-ordered engine registry `_search_engine`
(web_search.py lines 41-46), keyed by lowercase identifier. -/
def search_engine : List (String × EngineTag) :=
  [("google", EngineTag.google), ("baidu", EngineTag.baidu),
   ("duckduckgo", EngineTag.duckduckgo), ("bing", EngineTag.bing)]

/-- Keys of the registry: the known engine identifiers. -/
def knownEngines : List String := search_engine.map Prod.fst

/-- Search configuration as read by web_search.py: the optional
`config.search_config` with its optional fields.  Python truthiness is
modelled where the code tests it: `if config.search_config.engine:` is
false for `None` and for the empty string, and
`if config.search_config.fallback_engines:` is false for `None` and for
the empty list. -/
structure SearchConfig where
  engine : Option String
  fallback_engines : Option (List String)
  retry_delay : Nat
  max_retries : Nat
deriving Repr, DecidableEq

/-- Lowercasing of an identifier, modelling Python's `str.lower()` on
the ASCII engine identifiers: each character lowercased in place. -/
def lowerStr (s : String) : String :=
  String.mk (s.data.map Char.toLower)

/-- Preferred engine resolution of web_search.py lines 173-178: default
"google", replaced by the lowercased configured engine when the config
exists and its `engine` field is truthy (non-None, non-empty). -/
def preferredOf (cfg : Option SearchConfig) : String :=
  match cfg with
  | none => "google"
  | some c =>
      match c.engine with
      | none => "google"
      | some e => if e.isEmpty then "google" else lowerStr e

/-- Fallback list resolution of web_search.py lines 174-182: default
empty, replaced by the lowercased configured fallback list when the
config exists and the list is truthy (an empty list stays empty). -/
def fallbacksOf (cfg : Option SearchConfig) : List String :=
  match cfg with
  | none => []
  | some c =>
      match c.fallback_engines with
      | none => []
      | some l => l.map (fun e => lowerStr e)

/-- Loop of web_search.py lines 190-192: append each fallback that is a
known engine and not already present. -/
def addFallbacks (acc : List String) : List String → List String
  | [] => acc
  | fb :: rest =>
      addFallbacks
        (if knownEngines.contains fb && !acc.contains fb then acc ++ [fb] else acc)
        rest

/-- Engine-order resolver `_get_engine_order` (web_search.py lines
164-194): the preferred engine first if known, then each configured
fallback in order, skipping unknown identifiers and duplicates.
Remaining known engines are not appended. -/
def get_engine_order (cfg : Option SearchConfig) : List String :=
  addFallbacks (if knownEngines.contains (preferredOf cfg) then [preferredOf cfg] else [])
    (fallbacksOf cfg)

/-- Wait computed by tenacity's external `wait_exponential(multiplier,
min, max)` strategy after the attempt numbered `attemptNumber` (1-based)
fails: multiplier * 2 ^ (attemptNumber - 1), clamped into [min, max].
The decorator at web_search.py lines 196-199 instantiates it with
multiplier 1, min 1, max 10. -/
def waitExponential (multiplier minW maxW attemptNumber : Nat) : Nat :=
  max minW (min maxW (multiplier * 2 ^ (attemptNumber - 1)))

deriving instance DecidableEq for Except

/-- Trace of one `_perform_search_with_engine` call: the final result
(the links on success, the propagated error otherwise), how many
attempts were made, and the list of delays slept between consecutive
attempts (delays.length = attempts - 1). -/
structure RetryTrace where
  result : Except String (List String)
  attempts : Nat
  delays : List Nat
deriving Repr, DecidableEq

/-- Retry loop of the tenacity decorator on `_perform_search_with_engine`
(web_search.py lines 196-209): `engineAttempt n` is the outcome of the
engine call on the 1-based attempt number n.  With fuel attempts left,
a success returns immediately; a failure on the last attempt propagates
its error; otherwise the loop sleeps `waitExponential 1 1 10 n` and
retries. -/
def retryAux (engineAttempt : Nat → Except String (List String)) :
    Nat → Nat → RetryTrace
  | 0, _ => { result := Except.error "", attempts := 0, delays := [] }
  | 1, n => { result := engineAttempt n, attempts := 1, delays := [] }
  | fuel + 2, n =>
      match engineAttempt n with
      | Except.ok links => { result := Except.ok links, attempts := 1, delays := [] }
      | Except.error _ =>
          let rest := retryAux engineAttempt (fuel + 1) (n + 1)
          { result := rest.result
            attempts := rest.attempts + 1
            delays := waitExponential 1 1 10 n :: rest.delays }

/-- `_perform_search_with_engine` under its decorator
`stop_after_attempt(3)`: at most 3 attempts, starting at attempt 1. -/
def perform_search_with_engine
    (engineAttempt : Nat → Except String (List String)) : RetryTrace :=
  retryAux engineAttempt 3 1

/-- Trace of one `_try_all_engines` call: the ToolResult it returns and
the list of engine identifiers it invoked, in invocation order. -/
structure TrialTrace where
  outcome : ToolResult
  invoked : List String
deriving Repr, DecidableEq

/-- Whether the retrier's final result for an engine counts as success
for the `if links:` test at web_search.py line 111: it returned (rather
than raised) and the returned list is non-empty. -/
def isEngineSuccess (r : Except String (List String)) : Bool :=
  match r with
  | Except.ok links => !links.isEmpty
  | Except.error _ => false

/-- Loop of `_try_all_engines` (web_search.py lines 104-162) over a
given engine order.  `engineResult name` is the final result of
`_perform_search_with_engine` for the engine registered under `name`
(its links on success, the propagated retry error otherwise).  A raised
error is caught and the loop continues; an empty returned list also
falls through to the next engine; a non-empty list stops the loop and
returns the success outcome.  When the order is exhausted the empty
outcome is returned. -/
def tryAllEnginesAux (parse : String → Option String)
    (engineResult : String → Except String (List String))
    (query : String) : List String → TrialTrace
  | [] => { outcome := emptyOutcome query, invoked := [] }
  | name :: rest =>
      match engineResult name with
      | Except.ok links =>
          if links.isEmpty then
            let t := tryAllEnginesAux parse engineResult query rest
            { outcome := t.outcome, invoked := name :: t.invoked }
          else
            { outcome := successOutcome parse query name links, invoked := [name] }
      | Except.error _ =>
          let t := tryAllEnginesAux parse engineResult query rest
          { outcome := t.outcome, invoked := name :: t.invoked }

/-- `_try_all_engines`: the loop run over the resolved engine order. -/
def try_all_engines (parse : String → Option String)
    (engineResult : String → Except String (List String))
    (cfg : Option SearchConfig) (query : String) : TrialTrace :=
  tryAllEnginesAux parse engineResult query (get_engine_order cfg)

/-- Modelled from the spec: the truthiness of the ToolResult value in
the `if links:` test of `execute` (web_search.py line 74).  The
ToolResult base class (app/tool/base.py) is not part of the sources, so
its boolean conversion is taken from the spec, which says the outer
loop returns an attempt's outcome immediately exactly when it "yields a
non-empty outcome", and that "emptiness of `results` is the sole
failure signal": an outcome is truthy iff its results are non-empty. -/
def toolResultTruthy (r : ToolResult) : Bool :=
  !r.structured_data.results.isEmpty

/-- Value returned by `execute`: either a ToolResult returned from
inside the loop (web_search.py line 75) or the bare empty list of the
final `return []` (web_search.py line 88). -/
inductive ExecReturn where
  | outcome (r : ToolResult)
  | emptyList
deriving Repr, DecidableEq

/-- Trace of one `execute` call: the returned value, the number of
`_try_all_engines` trials made, and the list of sleep durations between
consecutive trials (sleeps.length = trials - 1 when all trials came
back falsy). -/
structure ExecTrace where
  ret : ExecReturn
  trials : Nat
  sleeps : List Nat
deriving Repr, DecidableEq

/-- Loop of `execute` (web_search.py lines 70-88):
`for retry_count in range(max_retries + 1)`.  `trial k` is the
ToolResult of the trial at retry_count k; `remaining` is the number of
loop iterations left.  A truthy trial result is returned immediately;
otherwise, when further iterations remain the loop sleeps `retryDelay`
and continues, and on the last iteration the loop ends and the bare
empty list of line 88 is returned. -/
def executeAux (trial : Nat → ToolResult) (retryDelay : Nat) :
    Nat → Nat → ExecTrace
  | 0, _ => { ret := ExecReturn.emptyList, trials := 0, sleeps := [] }
  | 1, k =>
      if toolResultTruthy (trial k) then
        { ret := ExecReturn.outcome (trial k), trials := 1, sleeps := [] }
      else
        { ret := ExecReturn.emptyList, trials := 1, sleeps := [] }
  | remaining + 2, k =>
      if toolResultTruthy (trial k) then
        { ret := ExecReturn.outcome (trial k), trials := 1, sleeps := [] }
      else
        let rest := executeAux trial retryDelay (remaining + 1) (k + 1)
        { ret := rest.ret, trials := rest.trials + 1, sleeps := retryDelay :: rest.sleeps }

/-- Retry delay read at web_search.py lines 62-66: default 60. -/
def retryDelayOf (cfg : Option SearchConfig) : Nat :=
  match cfg with
  | none => 60
  | some c => c.retry_delay

/-- Retry count read at web_search.py lines 63-67: default 3. -/
def maxRetriesOf (cfg : Option SearchConfig) : Nat :=
  match cfg with
  | none => 3
  | some c => c.max_retries

/-- `execute` (web_search.py lines 48-88): reads `retry_delay` and
`max_retries` from the configuration (defaults 60 and 3), then runs the
outer retry loop for max_retries + 1 iterations starting at
retry_count 0. -/
def execute (trial : Nat → ToolResult) (cfg : Option SearchConfig) : ExecTrace :=
  executeAux trial (retryDelayOf cfg) (maxRetriesOf cfg + 1) 0

/-- First-occurrence deduplication starting from an accumulator of
already-kept elements: each element is appended at its first occurrence
and skipped afterwards. -/
def firstOccurAux (acc : List String) : List String → List String
  | [] => acc
  | x :: rest =>
      firstOccurAux (if acc.contains x then acc else acc ++ [x]) rest

/-- First-occurrence deduplication of a list: the list with every
element kept only at its first occurrence, order preserved. -/
def firstOccurrences (l : List String) : List String :=
  firstOccurAux [] l

theorem addFallbacks_eq_firstOccurAux : ∀ (l acc : List String),
    addFallbacks acc l =
      firstOccurAux acc (l.filter (fun x => knownEngines.contains x)) := by
  intro l
  induction l with
  | nil => intro acc; rfl
  | cons fb rest ih =>
    intro acc
    by_cases hk : fb ∈ knownEngines
    · by_cases hc : fb ∈ acc <;>
        simp [addFallbacks, firstOccurAux, List.filter_cons, hk, hc, ih]
    · simp [addFallbacks, firstOccurAux, List.filter_cons, hk, ih]

theorem mem_addFallbacks : ∀ (l acc : List String) (x : String),
    x ∈ addFallbacks acc l → x ∈ acc ∨ (x ∈ l ∧ x ∈ knownEngines) := by
  intro l
  induction l with
  | nil => intro acc x h; exact Or.inl h
  | cons fb rest ih =>
    intro acc x h
    simp only [addFallbacks] at h
    rcases ih _ x h with h1 | ⟨h2, h3⟩
    · by_cases hcond : (knownEngines.contains fb && !acc.contains fb) = true
      · rw [if_pos hcond] at h1
        rcases List.mem_append.mp h1 with ha | hb
        · exact Or.inl ha
        · have hx : x = fb := by simpa using hb
          subst hx
          have hmem : x ∈ knownEngines ∧ x ∉ acc := by simpa using hcond
          exact Or.inr ⟨List.mem_cons_self _ _, hmem.1⟩
      · rw [if_neg hcond] at h1; exact Or.inl h1
    · exact Or.inr ⟨List.mem_cons_of_mem _ h2, h3⟩

theorem nodup_addFallbacks : ∀ (l acc : List String),
    acc.Nodup → (addFallbacks acc l).Nodup := by
  intro l
  induction l with
  | nil => intro acc h; exact h
  | cons fb rest ih =>
    intro acc h
    simp only [addFallbacks]
    apply ih
    by_cases hcond : (knownEngines.contains fb && !acc.contains fb) = true
    · rw [if_pos hcond]
      have hmem : fb ∈ knownEngines ∧ fb ∉ acc := by simpa using hcond
      simp [List.nodup_append, h, hmem.2]
    · rw [if_neg hcond]; exact h

theorem mem_engine_order_known (cfg : Option SearchConfig) (x : String)
    (h : x ∈ get_engine_order cfg) : x ∈ knownEngines := by
  unfold get_engine_order at h
  rcases mem_addFallbacks _ _ x h with h1 | ⟨_, h3⟩
  · by_cases hk : knownEngines.contains (preferredOf cfg) = true
    · rw [if_pos hk] at h1
      have hx : x = preferredOf cfg := by simpa using h1
      subst hx
      simpa using hk
    · rw [if_neg hk] at h1
      simp at h1
  · exact h3

/-- C7: for every configuration whose preferred engine
(lowercase-normalized) is a known engine and whose fallback list is
empty or absent, `_get_engine_order` returns exactly the single-element
list containing the preferred engine identifier. -/
theorem c7_single_preferred (cfg : Option SearchConfig)
    (hp : preferredOf cfg ∈ knownEngines) (hf : fallbacksOf cfg = []) :
    get_engine_order cfg = [preferredOf cfg] := by
  unfold get_engine_order
  rw [hf]
  simp [addFallbacks, hp]

/-- Witness for c7_single_preferred: configured engine "Bing", no
fallbacks, resolves to the single-element order. -/
theorem c7_single_preferred_witness :
    get_engine_order (some ⟨some "Bing", none, 60, 3⟩) =
      [preferredOf (some ⟨some "Bing", none, 60, 3⟩)] :=
  c7_single_preferred (some ⟨some "Bing", none, 60, 3⟩) (by decide) rfl

/-- C6: for every configuration (fallback lists with duplicates or
unknown identifiers included), the resolved engine order has no
duplicates, contains only identifiers known to the engine registry,
contains only the preferred engine plus configured fallbacks (remaining
known engines are never auto-appended), and equals the
first-occurrence deduplication of the known-filtered configured
sequence, preserving first-occurrence order of the configuration. -/
theorem c6_engine_order_resolver (cfg : Option SearchConfig) :
    (get_engine_order cfg).Nodup ∧
    (∀ x ∈ get_engine_order cfg, x ∈ knownEngines) ∧
    (∀ x ∈ get_engine_order cfg, x = preferredOf cfg ∨ x ∈ fallbacksOf cfg) ∧
    get_engine_order cfg =
      firstOccurrences ((preferredOf cfg :: fallbacksOf cfg).filter
        (fun x => knownEngines.contains x)) := by
  refine ⟨?_, ?_, ?_, ?_⟩
  · apply nodup_addFallbacks
    by_cases hk : preferredOf cfg ∈ knownEngines <;> simp [hk]
  · exact fun x hx => mem_engine_order_known cfg x hx
  · intro x hx
    unfold get_engine_order at hx
    rcases mem_addFallbacks _ _ x hx with h1 | ⟨h2, _⟩
    · left
      by_cases hk : preferredOf cfg ∈ knownEngines
      · have hk' : knownEngines.contains (preferredOf cfg) = true := by simpa using hk
        rw [if_pos hk'] at h1
        simpa using h1
      · have hk' : ¬ knownEngines.contains (preferredOf cfg) = true := by simpa using hk
        rw [if_neg hk'] at h1
        simp at h1
    · exact Or.inr h2
  · unfold get_engine_order firstOccurrences
    rw [addFallbacks_eq_firstOccurAux]
    by_cases hk : preferredOf cfg ∈ knownEngines <;>
      simp [firstOccurAux, List.filter_cons, hk]

/-- Witness for c6_engine_order_resolver: a configuration whose
fallback list has a duplicate of the preferred engine, a case-variant
duplicate, and an unknown identifier; the second conjunct places the
resolved "duckduckgo" among the known engines. -/
theorem c6_engine_order_resolver_witness :
    "duckduckgo" ∈ knownEngines :=
  (c6_engine_order_resolver
      (some ⟨some "Bing", some ["DuckDuckGo", "bing", "yahoo", "duckduckgo"], 60, 3⟩)).2.1
    "duckduckgo" (by decide)

/-- C10: every identifier in the resolved engine order is a key of the
fixed `_search_engine` registry, so the registry lookup at
web_search.py line 105 never fails with a missing key. -/
theorem c10_registry_lookup_total (cfg : Option SearchConfig) (name : String)
    (h : name ∈ get_engine_order cfg) :
    (search_engine.lookup name).isSome = true := by
  have hk := mem_engine_order_known cfg name h
  have hcases : name = "google" ∨ name = "baidu" ∨ name = "duckduckgo" ∨ name = "bing" := by
    simpa [knownEngines, search_engine] using hk
  rcases hcases with rfl | rfl | rfl | rfl <;> decide

/-- Witness for c10_registry_lookup_total: the resolved order for
configured engine "Bing" contains "bing", whose registry lookup
succeeds. -/
theorem c10_registry_lookup_total_witness :
    (search_engine.lookup "bing").isSome = true :=
  c10_registry_lookup_total (some ⟨some "Bing", none, 60, 3⟩) "bing" (by decide)

theorem structuredResultsAux_length (parse : String → Option String) :
    ∀ (links : List String) (i : Nat),
      (structuredResultsAux parse i links).length = links.length := by
  intro links
  induction links with
  | nil => intro i; rfl
  | cons l rest ih =>
    intro i
    simp [structuredResultsAux, ih]

theorem structuredResults_length (parse : String → Option String)
    (links : List String) :
    (structuredResults parse links).length = links.length :=
  structuredResultsAux_length parse links 0

theorem structuredResultsAux_get (parse : String → Option String) :
    ∀ (links : List String) (i j : Nat) (h : j < links.length)
      (h' : j < (structuredResultsAux parse i links).length),
      (structuredResultsAux parse i links).get ⟨j, h'⟩ =
        structuredOf parse (i + j) (links.get ⟨j, h⟩) := by
  intro links
  induction links with
  | nil => intro i j h h'; simp at h
  | cons l rest ih =>
    intro i j h h'
    cases j with
    | zero => simp [structuredResultsAux]
    | succ j' =>
      have hrest : j' < rest.length := by simpa using h
      have h'rest : j' < (structuredResultsAux parse (i + 1) rest).length := by
        rw [structuredResultsAux_length]; exact hrest
      have := ih (i + 1) j' hrest h'rest
      simp only [structuredResultsAux, List.get_cons_succ]
      rw [this]
      have harith : i + 1 + j' = i + (j' + 1) := by omega
      rw [harith]

/-- C3: for every raw result string that fails URL parsing during
normalization, the produced StructuredResult has domain "unknown",
snippet "No description available" and empty favicon, and the entry is
still included in the results at its position: the normalized list has
the same length as the raw list, and at the failing position it holds
exactly the minimal entry (a parse failure never drops a result). -/
theorem c3_parse_failure_kept (parse : String → Option String)
    (links : List String) (i : Nat) (h : i < links.length)
    (hfail : parse (links.get ⟨i, h⟩) = none) :
    (structuredResults parse links).length = links.length ∧
    (structuredResults parse links).get
        ⟨i, by rw [structuredResults_length]; exact h⟩ =
      { title := "Result " ++ toString (i + 1)
        url := links.get ⟨i, h⟩
        domain := "unknown"
        snippet := "No description available"
        favicon := "" } := by
  refine ⟨structuredResults_length parse links, ?_⟩
  have hget := structuredResultsAux_get parse links 0 i h
    (by rw [structuredResultsAux_length]; exact h)
  unfold structuredResults
  rw [hget, Nat.zero_add]
  unfold structuredOf
  rw [hfail]

/-- Witness for c3_parse_failure_kept: the raw result "not a url" fails
parsing and is normalized to the minimal entry, still present. -/
theorem c3_parse_failure_kept_witness :
    (structuredResults (fun _ => none) ["not a url"]).length =
      (["not a url"] : List String).length ∧
    (structuredResults (fun _ => none) ["not a url"]).get
        ⟨0, by rw [structuredResults_length]; decide⟩ =
      { title := "Result 1"
        url := "not a url"
        domain := "unknown"
        snippet := "No description available"
        favicon := "" } := by
  have h := c3_parse_failure_kept (fun _ => none) ["not a url"] 0 (by decide) rfl
  exact ⟨h.1, h.2⟩

/-- C8: normalization of a successfully parsed URL at position i yields
title "Result " ++ (i+1), the URL's authority component as domain,
snippet "Found at " ++ domain and the favicon template applied to the
domain; concretely, the raw result "https://example.com/page" at
position 0 produces exactly the structured entry for domain
"example.com". -/
theorem c8_normalization_success (parse : String → Option String) (i : Nat)
    (link domain : String) (hp : parse link = some domain) :
    structuredOf parse i link =
      { title := "Result " ++ toString (i + 1)
        url := link
        domain := domain
        snippet := "Found at " ++ domain
        favicon := faviconTemplate domain } ∧
    structuredOf netlocOf 0 "https://example.com/page" =
      { title := "Result 1"
        url := "https://example.com/page"
        domain := "example.com"
        snippet := "Found at example.com"
        favicon := "https://www.google.com/s2/favicons?domain=example.com" } := by
  constructor
  · simp [structuredOf, hp]
  · decide

/-- Witness for c8_normalization_success: the example URL parsed by the
modelled netloc extraction. -/
theorem c8_normalization_success_witness :
    structuredOf netlocOf 0 "https://example.com/page" =
      { title := "Result " ++ toString (0 + 1)
        url := "https://example.com/page"
        domain := "example.com"
        snippet := "Found at " ++ "example.com"
        favicon := faviconTemplate "example.com" } :=
  (c8_normalization_success netlocOf 0 "https://example.com/page" "example.com"
      (by decide)).1

/-- C5: for an engine whose every call fails, the retrier makes exactly
3 attempts, the delays between consecutive attempts are the
exponential-backoff waits after attempts 1 and 2 — concretely 1 time
unit before attempt 2 and 2 time units before attempt 3, i.e.
min 10 (2 ^ (n - 2)) before attempt n — there is no delay before
attempt 1 (only two delays are slept), and the final attempt's error
propagates to the caller. -/
theorem c5_retrier_three_attempts
    (engineAttempt : Nat → Except String (List String))
    (hfail : ∀ n, ∃ msg, engineAttempt n = Except.error msg) :
    (perform_search_with_engine engineAttempt).attempts = 3 ∧
    (perform_search_with_engine engineAttempt).delays =
      [waitExponential 1 1 10 1, waitExponential 1 1 10 2] ∧
    (perform_search_with_engine engineAttempt).delays =
      [min 10 (2 ^ (2 - 2)), min 10 (2 ^ (3 - 2))] ∧
    (perform_search_with_engine engineAttempt).delays = [1, 2] ∧
    (perform_search_with_engine engineAttempt).result = engineAttempt 3 := by
  obtain ⟨m1, h1⟩ := hfail 1
  obtain ⟨m2, h2⟩ := hfail 2
  refine ⟨?_, ?_, ?_, ?_, ?_⟩ <;>
    simp [perform_search_with_engine, retryAux, h1, h2, waitExponential]

/-- Witness for c5_retrier_three_attempts: an engine failing every
attempt with the same error. -/
theorem c5_retrier_three_attempts_witness :
    (perform_search_with_engine (fun _ => Except.error "boom")).attempts = 3 ∧
    (perform_search_with_engine (fun _ => Except.error "boom")).delays =
      [waitExponential 1 1 10 1, waitExponential 1 1 10 2] ∧
    (perform_search_with_engine (fun _ => Except.error "boom")).delays =
      [min 10 (2 ^ (2 - 2)), min 10 (2 ^ (3 - 2))] ∧
    (perform_search_with_engine (fun _ => Except.error "boom")).delays = [1, 2] ∧
    (perform_search_with_engine (fun _ => Except.error "boom")).result =
      (fun _ => Except.error "boom" : Nat → Except String (List String)) 3 :=
  c5_retrier_three_attempts (fun _ => Except.error "boom")
    (fun _ => ⟨"boom", rfl⟩)

theorem structuredResults_ne_nil (parse : String → Option String)
    (links : List String) (h : links ≠ []) :
    structuredResults parse links ≠ [] := by
  intro hcon
  have hlen := structuredResults_length parse links
  rw [hcon] at hlen
  exact h (List.length_eq_zero.mp hlen.symm)

/-- C4: if the engine at position k of the resolved order yields a
non-empty result list and no engine before it does, the all-engines
trial invokes exactly the engines at positions 0..k — it stops at
position k and never invokes any engine at a greater position. -/
theorem c4_first_success_stops (parse : String → Option String)
    (engineResult : String → Except String (List String)) (query : String)
    (order : List String) (k : Nat) (hk : k < order.length)
    (links : List String)
    (hsucc : engineResult (order.get ⟨k, hk⟩) = Except.ok links)
    (hne : links ≠ [])
    (hbefore : ∀ j (hj : j < k),
      isEngineSuccess (engineResult (order.get ⟨j, Nat.lt_trans hj hk⟩)) = false) :
    (tryAllEnginesAux parse engineResult query order).invoked =
      order.take (k + 1) := by
  induction order generalizing k with
  | nil => simp at hk
  | cons name rest ih =>
    cases k with
    | zero =>
      have hsucc0 : engineResult name = Except.ok links := hsucc
      have hempty : links.isEmpty = false := by simpa using hne
      simp [tryAllEnginesAux, hsucc0, hempty]
    | succ k' =>
      have hk' : k' < rest.length := by simpa using hk
      have hsucc' : engineResult (rest.get ⟨k', hk'⟩) = Except.ok links := hsucc
      have hbefore' : ∀ j (hj : j < k'),
          isEngineSuccess (engineResult (rest.get ⟨j, Nat.lt_trans hj hk'⟩)) = false := by
        intro j hj
        exact hbefore (j + 1) (by omega)
      have h0 : isEngineSuccess (engineResult name) = false := hbefore 0 (by omega)
      have hrest := ih k' hk' hsucc' hbefore'
      cases hres : engineResult name with
      | error e => simp [tryAllEnginesAux, hres, hrest]
      | ok l =>
        have hl : l.isEmpty = true := by
          rw [hres] at h0
          simpa [isEngineSuccess] using h0
        simp [tryAllEnginesAux, hres, hl, hrest]

/-- Witness for c4_first_success_stops: "google" fails, "bing" at
position 1 succeeds with one link, "baidu" at position 2 is never
invoked. -/
theorem c4_first_success_stops_witness :
    (tryAllEnginesAux (fun _ => none)
        (fun name => if name = "google" then Except.error "down"
          else Except.ok ["https://a.example/x"])
        "q" ["google", "bing", "baidu"]).invoked =
      (["google", "bing", "baidu"] : List String).take (1 + 1) :=
  c4_first_success_stops (fun _ => none)
    (fun name => if name = "google" then Except.error "down"
      else Except.ok ["https://a.example/x"])
    "q" ["google", "bing", "baidu"] 1 (by decide) ["https://a.example/x"]
    (by decide) (by decide)
    (fun j hj => by
      have hj0 : j = 0 := by omega
      subst hj0
      simp [isEngineSuccess])

/-- C9: every ToolResult produced by the all-engines trial satisfies
the outcome invariant: either its results are empty and the `engine`
field is absent, or there is an engine of the order whose retried call
returned the non-empty raw links, the outcome is exactly the success
outcome built from those links, its `engine` field names that engine,
and its results are non-empty. -/
theorem c9_outcome_invariant (parse : String → Option String)
    (engineResult : String → Except String (List String)) (query : String)
    (order : List String) :
    ((tryAllEnginesAux parse engineResult query order).outcome.structured_data.results = [] ∧
     (tryAllEnginesAux parse engineResult query order).outcome.structured_data.engine = none) ∨
    (∃ name links, name ∈ order ∧
      engineResult name = Except.ok links ∧ links ≠ [] ∧
      (tryAllEnginesAux parse engineResult query order).outcome =
        successOutcome parse query name links ∧
      (tryAllEnginesAux parse engineResult query order).outcome.structured_data.engine =
        some name ∧
      (tryAllEnginesAux parse engineResult query order).outcome.structured_data.results ≠ []) := by
  induction order with
  | nil => left; simp [tryAllEnginesAux, emptyOutcome]
  | cons name rest ih =>
    cases hres : engineResult name with
    | error e =>
      rcases ih with h | ⟨n, l, hmem, hconj⟩
      · left; simpa [tryAllEnginesAux, hres] using h
      · right
        refine ⟨n, l, List.mem_cons_of_mem _ hmem, ?_⟩
        simpa [tryAllEnginesAux, hres] using hconj
    | ok l =>
      cases hl : l.isEmpty with
      | true =>
        rcases ih with h | ⟨n, l', hmem, hconj⟩
        · left; simpa [tryAllEnginesAux, hres, hl] using h
        · right
          refine ⟨n, l', List.mem_cons_of_mem _ hmem, ?_⟩
          simpa [tryAllEnginesAux, hres, hl] using hconj
      | false =>
        right
        have hlne : l ≠ [] := by simpa using hl
        refine ⟨name, l, List.mem_cons_self _ _, hres, hlne, ?_, ?_, ?_⟩
        · simp [tryAllEnginesAux, hres, hl]
        · simp [tryAllEnginesAux, hres, hl, successOutcome]
        · simp only [tryAllEnginesAux, hres, hl]
          simp [successOutcome]
          exact structuredResults_ne_nil parse l hlne

theorem executeAux_all_empty (trial : Nat → ToolResult) (d : Nat)
    (hall : ∀ j, (trial j).structured_data.results = []) :
    ∀ (n k : Nat),
      executeAux trial d (n + 1) k =
        { ret := ExecReturn.emptyList, trials := n + 1,
          sleeps := List.replicate n d } := by
  intro n
  induction n with
  | zero =>
    intro k
    simp [executeAux, toolResultTruthy, hall k]
  | succ m ih =>
    intro k
    have hk : toolResultTruthy (trial k) = false := by
      simp [toolResultTruthy, hall k]
    simp [executeAux, hk, ih (k + 1), List.replicate]

/-- C2: when every trial yields an empty outcome, `execute` invokes the
all-engines trial exactly max_retries + 1 times and sleeps retry_delay
time units between each pair of consecutive trials; when the first
trial yields a non-empty outcome, `execute` invokes the trial exactly
once, sleeps never, and returns that outcome immediately.  The ToolResult
truthiness used by the loop's early return is modelled from the spec. -/
theorem c2_outer_retry_counts (trial : Nat → ToolResult)
    (cfg : Option SearchConfig) :
    ((∀ j, (trial j).structured_data.results = []) →
      execute trial cfg =
        { ret := ExecReturn.emptyList
          trials := maxRetriesOf cfg + 1
          sleeps := List.replicate (maxRetriesOf cfg) (retryDelayOf cfg) }) ∧
    ((trial 0).structured_data.results ≠ [] →
      execute trial cfg =
        { ret := ExecReturn.outcome (trial 0), trials := 1, sleeps := [] }) := by
  constructor
  · intro hall
    exact executeAux_all_empty trial (retryDelayOf cfg) hall (maxRetriesOf cfg) 0
  · intro hne
    have ht : toolResultTruthy (trial 0) = true := by
      simpa [toolResultTruthy] using hne
    unfold execute
    cases hm : maxRetriesOf cfg with
    | zero => simp [executeAux, ht]
    | succ m => simp [executeAux, ht]

/-- Witness for c2_outer_retry_counts: with max_retries 2 and
retry_delay 7, all-empty trials give 3 trials and two sleeps of 7,
while a first-trial success returns after 1 trial with no sleep. -/
theorem c2_outer_retry_counts_witness :
    execute (fun _ => emptyOutcome "q") (some ⟨some "google", none, 7, 2⟩) =
      { ret := ExecReturn.emptyList, trials := 2 + 1,
        sleeps := List.replicate 2 7 } ∧
    execute (fun _ => successOutcome (fun _ => none) "q" "google" ["https://a.example/x"])
        (some ⟨some "google", none, 7, 2⟩) =
      { ret := ExecReturn.outcome
          (successOutcome (fun _ => none) "q" "google" ["https://a.example/x"])
        trials := 1
        sleeps := [] } :=
  ⟨(c2_outer_retry_counts (fun _ => emptyOutcome "q")
      (some ⟨some "google", none, 7, 2⟩)).1 (fun _ => rfl),
   (c2_outer_retry_counts
      (fun _ => successOutcome (fun _ => none) "q" "google" ["https://a.example/x"])
      (some ⟨some "google", none, 7, 2⟩)).2 (by decide)⟩

/-- C1 (code bug): with the spec-modelled ToolResult truthiness, when
every trial yields the empty outcome the loop of `execute` falls
through and line 88 returns the bare empty list, not the empty
SearchOutcome ToolResult built by `_try_all_engines` — contradicting
the function's own `-> ToolResult` annotation and docstring.  Evaluated
at a concrete failing input: default configuration, every trial empty;
the returned value is the bare-list marker and differs from the empty
outcome. -/
theorem c1_all_empty_returns_bare_list :
    execute (fun _ => emptyOutcome "rust ownership") none =
      { ret := ExecReturn.emptyList, trials := 4, sleeps := [60, 60, 60] } ∧
    ∀ r : ToolResult, ExecReturn.emptyList ≠ ExecReturn.outcome r := by
  constructor
  · exact executeAux_all_empty (fun _ => emptyOutcome "rust ownership") 60
      (fun _ => rfl) 3 0
  · intro r h
    cases h
